import Mathlib

set_option linter.unusedSectionVars false

/-!
Shallow embedding of the `com::vectormap` container from
`src/include/vectormap.hpp` (the repository's single substantive source
file), together with theorems settling the frozen claims about it.

Modelling conventions:
* The manually managed buffer `data_` (a raw allocation of `capacity_`
  slots, the first `size_` of which are supposed to be constructed) is a
  `List (Option (K × V))` of length `capacity_`; `some e` is a constructed
  slot holding entry `e`, `none` is an uninitialized (never-constructed or
  destroyed) slot.  `allocator_traits::construct` at index `i` is
  `List.set i (some e)`; `allocator_traits::destroy` at `i` is
  `List.set i none`.
* `size_t` values (sizes, capacities, positions, the `delta_` template
  parameter) are `Nat`.  The one place the C++ relies on unsigned
  wrap-around is the guard `(i - length) != npos` in `gap_`'s shift loop;
  for the values that reach it (`i < 2^64 - 1`) it is equivalent to
  `i + 1 ≠ length`, which is how it is written here.  Likewise the guard
  `out.size() == number - 1` in `get`, where `number - 1` wraps for
  `number == 0`, is written `out.length + 1 = number` (never true at
  `number = 0`, exactly as in the C++).
* Reading a slot (`data_[i]`) is `List.getD i none`; reading an
  uninitialized slot — undefined behaviour in C++ — surfaces as `none`.
* Functions that in C++ return an `iterator` return `Option Nat`:
  `some pos` for `iterator(&data_[pos])`, `none` for the end-of-sequence
  marker `end()`.
* `std::move` of a trivially copyable entry is a copy; a moved-from slot
  keeps its value unless the code explicitly destroys it, mirroring the
  source's explicit construct/destroy pairs.
-/

namespace Com

/-- One buffer slot: `some e` = constructed entry, `none` = uninitialized. -/
abbrev Slot (K V : Type) := Option (K × V)

/-- The container: `size_` live entries inside a buffer of `capacity_`
slots, plus the two default-constructed sentinel members
`void_mapped_type_` / `void_key_type_` returned by out-of-range
position-based accessors. -/
structure vectormap (K V : Type) where
  size_ : Nat
  capacity_ : Nat
  data_ : List (Slot K V)
  void_mapped_type_ : V
  void_key_type_ : K
deriving DecidableEq

namespace vectormap

variable {K V : Type} [Inhabited K] [Inhabited V] [BEq K]

/-- The live window of the buffer: slots `[0, size_)`. -/
def live (m : vectormap K V) : List (Slot K V) :=
  m.data_.take m.size_

/-- Default constructor: `capacity_(0), size_(0), data_(nullptr)`. -/
def new : vectormap K V :=
  ⟨0, 0, [], default, default⟩

/-- Constructor from an `initializer_list` (hpp lines 265-279): capacity
starts at `delta_`, is bumped to `((il.size() / delta_) + 1) * delta_`
when the list is longer, and the entries are constructed in order. -/
def of_list (delta : Nat) (il : List (K × V)) : vectormap K V :=
  let cap := if delta < il.length then (il.length / delta + 1) * delta else delta
  ⟨il.length, cap, il.map some ++ List.replicate (cap - il.length) none,
   default, default⟩

/-- Copy constructor (hpp lines 281-288): same size and capacity, the
first `size_` slots deep-copied, the rest of the new buffer uninitialized;
the sentinel members are freshly default-constructed. -/
def copy_ctor (other : vectormap K V) : vectormap K V :=
  ⟨other.size_, other.capacity_,
   (List.range other.capacity_).map
     (fun i => if i < other.size_ then other.data_.getD i none else none),
   default, default⟩

/-- Move constructor (hpp lines 290-302): the new object takes the buffer,
size and capacity (its sentinels are default-constructed); the source is
left with null buffer, size 0 and capacity 0.  Returns
(new object, moved-from source). -/
def move_ctor (other : vectormap K V) : vectormap K V × vectormap K V :=
  (⟨other.size_, other.capacity_, other.data_, default, default⟩,
   { other with size_ := 0, capacity_ := 0, data_ := [] })

/-- `resize` (hpp lines 531-550): fails iff `new_capacity < size_`;
otherwise reallocates to exactly `new_capacity` slots, relocating the
first `size_` slots and leaving the rest uninitialized. -/
def resize (m : vectormap K V) (new_capacity : Nat) : Bool × vectormap K V :=
  if new_capacity < m.size_ then (false, m)
  else
    (true,
     { m with
       capacity_ := new_capacity,
       data_ := (List.range new_capacity).map
         (fun i => if i < m.size_ then m.data_.getD i none else none) })

/-- `reserve` (hpp lines 522-529): fails iff `min_capacity < size_`;
otherwise delegates to `resize (((min_capacity / delta_) + 1) * delta_)` —
note this reallocates unconditionally, even to a smaller capacity. -/
def reserve (delta : Nat) (m : vectormap K V) (min_capacity : Nat) :
    Bool × vectormap K V :=
  if min_capacity < m.size_ then (false, m)
  else resize m ((min_capacity / delta + 1) * delta)

/-- `shrink` (hpp line 221): `resize(size_)`. -/
def shrink (m : vectormap K V) : Bool × vectormap K V :=
  resize m m.size_

/-- The backward shift loop of `gap_` (hpp line 597):
`for (i = size_ - 1; (i > from) && ((i - length) != npos); i--)` with body
`construct(data_ + i, move(data_[i - length])); destroy(data_ + i - length);`.
Structural recursion on `i`; the guard `(i - length) != npos` is the
unsigned-wrap test `i + 1 ≠ length` (see the header comment). -/
def gap_loop (from_ len : Nat) : Nat → List (Slot K V) → List (Slot K V)
  | 0, data => data
  | i + 1, data =>
    if from_ < i + 1 ∧ i + 2 ≠ len then
      gap_loop from_ len i
        ((data.set (i + 1) (data.getD (i + 1 - len) none)).set (i + 1 - len) none)
    else data

/-- `gap_` (hpp lines 578-607): grows the buffer if needed, increments
`size_` by `length`, then (unless the old size was 0 or
`from >= size_ + length`) runs the backward shift loop. -/
def gap_ (delta : Nat) (m : vectormap K V) (from_ len : Nat) :
    Bool × vectormap K V :=
  let p := if m.size_ + len > m.capacity_
           then reserve delta m (m.size_ + len)
           else (true, m)
  let success := p.1
  let m1 := p.2
  let m2 := { m1 with size_ := m1.size_ + len }
  if m2.size_ ≤ len then (true, m2)
  else if success then
    if from_ ≥ m2.size_ then (true, m2)
    else (true, { m2 with data_ := gap_loop from_ len (m2.size_ - 1) m2.data_ })
  else (false, m2)

/-- `insert(val, pos)` (hpp lines 313-329): end marker and no mutation when
`pos > size_`; otherwise opens a one-slot gap at `pos` and constructs the
entry there. -/
def insert (delta : Nat) (m : vectormap K V) (val : K × V) (pos : Nat) :
    Option Nat × vectormap K V :=
  if pos > m.size_ then (none, m)
  else
    let p := gap_ delta m pos 1
    if p.1 then (some pos, { p.2 with data_ := p.2.data_.set pos (some val) })
    else (none, p.2)

/-- Writes a run of slot values at consecutive positions starting at
`pos`, in order (the construct loops of the sequence inserts). -/
def write_run (data : List (Slot K V)) (pos : Nat) :
    List (Slot K V) → List (Slot K V)
  | [] => data
  | o :: rest => write_run (data.set pos o) (pos + 1) rest

/-- `insert(initializer_list, pos)` (hpp lines 331-348): end marker and no
mutation when `pos > size_`; otherwise opens a gap of `il.size()` slots at
`pos` and constructs the listed entries into it in order. -/
def insert_list (delta : Nat) (m : vectormap K V) (il : List (K × V))
    (pos : Nat) : Option Nat × vectormap K V :=
  if pos > m.size_ then (none, m)
  else
    let p := gap_ delta m pos il.length
    if p.1 then
      (some pos, { p.2 with data_ := write_run p.2.data_ pos (il.map some) })
    else (none, p.2)

/-- `insert(map, pos)` (hpp lines 350-368): like `insert_list`, copying
the first `other.size_` slots of the other container's buffer. -/
def insert_map (delta : Nat) (m other : vectormap K V) (pos : Nat) :
    Option Nat × vectormap K V :=
  if pos > m.size_ then (none, m)
  else
    let p := gap_ delta m pos other.size_
    if p.1 then
      (some pos,
       { p.2 with
         data_ := write_run p.2.data_ pos
           ((List.range other.size_).map (fun i => other.data_.getD i none)) })
    else (none, p.2)

/-- Does slot `i` hold an entry whose key equals `key`
(`data_[i].first == key`)?  Reading an uninitialized slot is UB in C++;
here it simply fails to match. -/
def slot_matches (m : vectormap K V) (key : K) (i : Nat) : Bool :=
  match m.data_.getD i none with
  | some e => e.1 == key
  | none => false

/-- The scan loop of `get(key, ordinal, number)` (hpp lines 370-392),
recursing over the remaining positions with the running `order` counter
and accumulated output (positions stand for the returned
(iterator, position) pairs).  The early-return guard
`out.size() == number - 1` is written `out.length + 1 = number`
(unsigned wrap: never true for `number = 0`). -/
def get_go (m : vectormap K V) (key : K) (ordinal number : Nat) :
    List Nat → Nat → List Nat → List Nat
  | [], _, out => out
  | i :: rest, order, out =>
    if slot_matches m key i then
      if ordinal ≤ order ∧ out.length + 1 = number then out ++ [i]
      else if ordinal ≤ order then
        get_go m key ordinal number rest (order + 1) (out ++ [i])
      else get_go m key ordinal number rest (order + 1) out
    else get_go m key ordinal number rest order out

/-- `get(key, ordinal, number)` (hpp lines 370-392): positions of up to
`number` consecutive matches starting at the `ordinal`-th match. -/
def get (m : vectormap K V) (key : K) (ordinal number : Nat) : List Nat :=
  get_go m key ordinal number (List.range m.size_) 1 []

/-- `get_all(key)` (hpp lines 394-403): positions of every match,
ascending. -/
def get_all (m : vectormap K V) (key : K) : List Nat :=
  (List.range m.size_).filter (fun i => slot_matches m key i)

/-- `get_value(pos)` (hpp line 184):
`pos < size_ ? data_[pos].second : void_mapped_type_`, returned together
with the (unchanged) container to make the absence of mutation explicit.
The inner `none` branch is the C++ UB of reading an uninitialized live
slot; it is unreachable for well-formed containers. -/
def get_value_at (m : vectormap K V) (pos : Nat) : V × vectormap K V :=
  if pos < m.size_ then
    (match m.data_.getD pos none with
     | some e => e.2
     | none => m.void_mapped_type_, m)
  else (m.void_mapped_type_, m)

/-- `get_key(pos)` (hpp line 187):
`pos < size_ ? data_[pos].first : void_key_type_`. -/
def get_key_at (m : vectormap K V) (pos : Nat) : K × vectormap K V :=
  if pos < m.size_ then
    (match m.data_.getD pos none with
     | some e => e.1
     | none => m.void_key_type_, m)
  else (m.void_key_type_, m)

/-- `clear` (hpp lines 453-458): destroys the first `size_` slots and sets
`size_` to 0; buffer and capacity are kept. -/
def clear (m : vectormap K V) : vectormap K V :=
  { m with
    size_ := 0,
    data_ := (List.range m.data_.length).map
      (fun i => if i < m.size_ then none else m.data_.getD i none) }

/-- The left-shift loop of `erase` (hpp lines 464-467):
`destroy(data_ + i); construct(data_ + i, move(data_[i + 1]))` for
`i = pos .. size_ - 1` (the moved-from slot `i+1` is not destroyed).
First argument is the remaining iteration count. -/
def erase_loop : Nat → Nat → List (Slot K V) → List (Slot K V)
  | 0, _, data => data
  | c + 1, i, data => erase_loop c (i + 1) (data.set i (data.getD (i + 1) none))

/-- `erase(pos)` (hpp lines 460-469): no-op when the container is empty or
`pos >= size_`; otherwise decrements `size_` and left-shifts the tail. -/
def erase (m : vectormap K V) (pos : Nat) : vectormap K V :=
  if 0 < m.size_ ∧ pos < m.size_ then
    let sz := m.size_ - 1
    { m with size_ := sz, data_ := erase_loop (sz - pos) pos m.data_ }
  else m

/-- `erase(initializer_list)` (hpp lines 471-476): erases each listed
position in the order given. -/
def erase_list (m : vectormap K V) (il : List Nat) : vectormap K V :=
  il.foldl erase m

/-- `erase_all(key)` (hpp lines 478-485): erases every match, iterating
the match positions from highest to lowest. -/
def erase_all (m : vectormap K V) (key : K) : vectormap K V :=
  (m.get_all key).reverse.foldl erase m

/-- The left-shift loop of `move` (hpp lines 493-496):
`construct(data_ + i, move(data_[i + 1])); destroy(data_ + i + 1)` for
`i = from + 1 .. size_ - 1`.  First argument is the iteration count. -/
def move_loop : Nat → Nat → List (Slot K V) → List (Slot K V)
  | 0, _, data => data
  | c + 1, i, data =>
    move_loop c (i + 1) ((data.set i (data.getD (i + 1) none)).set (i + 1) none)

/-- `move(from, to)` (hpp lines 487-499): no-op when either index is out
of range; otherwise opens a one-slot gap at `to` (ignoring its result),
moves `data_[from + 1]` into slot `to`, destroys slot `from + 1`,
left-shifts the tail from `from + 1`, and decrements `size_`. -/
def move (delta : Nat) (m : vectormap K V) (from_ to_ : Nat) : vectormap K V :=
  if from_ < m.size_ ∧ to_ < m.size_ then
    let m1 := (gap_ delta m to_ 1).2
    let d1 := (m1.data_.set to_ (m1.data_.getD (from_ + 1) none)).set (from_ + 1) none
    { m1 with
      size_ := m1.size_ - 1,
      data_ := move_loop (m1.size_ - (from_ + 1)) (from_ + 1) d1 }
  else m

/-- `swap(from, to)` (hpp lines 501-512): no-op when either index is out
of range; otherwise exchanges the two slots by value. -/
def swap_at (m : vectormap K V) (from_ to_ : Nat) : vectormap K V :=
  if from_ < m.size_ ∧ to_ < m.size_ then
    let temp := m.data_.getD to_ none
    { m with data_ := (m.data_.set to_ (m.data_.getD from_ none)).set from_ temp }
  else m

/-- `swap(a, b)` (hpp lines 514-520): exchanges buffer, size and capacity
of the two containers (the sentinel members stay with their objects,
matching the member-wise `std::swap` of allocator/data/size/capacity
only). -/
def swap_vm (a b : vectormap K V) : vectormap K V × vectormap K V :=
  ({ a with data_ := b.data_, size_ := b.size_, capacity_ := b.capacity_ },
   { b with data_ := a.data_, size_ := a.size_, capacity_ := a.capacity_ })

/-- `set_value(new_mapped_value, pos)` (hpp line 197):
`data_[pos].second = new_mapped_value` — unguarded; out of range or on an
uninitialized slot it is C++ UB, modelled as leaving the slot as is. -/
def set_value_at (m : vectormap K V) (new_val : V) (pos : Nat) :
    vectormap K V :=
  { m with
    data_ := m.data_.set pos
      (match m.data_.getD pos none with
       | some e => some (e.1, new_val)
       | none => none) }

/-- Copy assignment, non-self branch (hpp lines 552-566): `clear()`, grow
via `reserve(other.size_)` when `other.size_ > capacity_`, then construct
deep copies of the other container's live slots — note `size_` is never
updated, so it stays 0 after `clear()`.  (The self-assignment branch of
the C++ operator does nothing.) -/
def copy_assign (delta : Nat) (m other : vectormap K V) : vectormap K V :=
  let m1 := clear m
  let m2 := if other.size_ > m1.capacity_
            then (reserve delta m1 other.size_).2
            else m1
  { m2 with
    data_ := write_run m2.data_ 0
      ((List.range other.size_).map (fun i => other.data_.getD i none)) }

/-- Move assignment (hpp lines 568-576): the target takes the source's
buffer and size (`std::exchange`), but the capacities are `std::swap`ped —
the moved-from source keeps the target's old capacity.  Returns
(new target, moved-from source). -/
def move_assign (m other : vectormap K V) : vectormap K V × vectormap K V :=
  ({ m with data_ := other.data_, size_ := other.size_,
            capacity_ := other.capacity_ },
   { other with data_ := [], size_ := 0, capacity_ := m.capacity_ })

/-- `push_back(il)` (hpp line 171): `insert(il, size_)`. -/
def push_back_list (delta : Nat) (m : vectormap K V) (il : List (K × V)) :
    Option Nat × vectormap K V :=
  insert_list delta m il m.size_

/-- Containers reachable from the constructors by the public operations
(each operation is the embedding above; operations taking another
container require that container to be reachable too).  The key-based
`erase`/`set`/`set_value`/`set_key` overloads are omitted: their bodies
(hpp lines 196, 198, 200, 207) do not type-check when instantiated
(member access on a returned `std::vector`), as does positional
`set`/`set_key` (assignment through the `const` key of `value_type`), so
no program can invoke them. -/
inductive Reachable (delta : Nat) : vectormap K V → Prop where
  | new : Reachable delta new
  | of_list (il) : Reachable delta (of_list delta il)
  | copy_ctor {m} : Reachable delta m → Reachable delta (copy_ctor m)
  | move_ctor_dst {m} : Reachable delta m → Reachable delta (move_ctor m).1
  | move_ctor_src {m} : Reachable delta m → Reachable delta (move_ctor m).2
  | insert {m} (val pos) : Reachable delta m →
      Reachable delta (insert delta m val pos).2
  | insert_list {m} (il pos) : Reachable delta m →
      Reachable delta (insert_list delta m il pos).2
  | insert_map {m other} (pos) : Reachable delta m → Reachable delta other →
      Reachable delta (insert_map delta m other pos).2
  | erase {m} (pos) : Reachable delta m → Reachable delta (erase m pos)
  | erase_list {m} (il) : Reachable delta m → Reachable delta (erase_list m il)
  | erase_all {m} (key) : Reachable delta m → Reachable delta (erase_all m key)
  | move {m} (from_ : Nat) (to_ : Nat) : Reachable delta m →
      Reachable delta (move delta m from_ to_)
  | swap_at {m} (from_ : Nat) (to_ : Nat) : Reachable delta m →
      Reachable delta (swap_at m from_ to_)
  | swap_vm_left {a b} : Reachable delta a → Reachable delta b →
      Reachable delta (swap_vm a b).1
  | swap_vm_right {a b} : Reachable delta a → Reachable delta b →
      Reachable delta (swap_vm a b).2
  | clear {m} : Reachable delta m → Reachable delta (clear m)
  | reserve {m} (c) : Reachable delta m → Reachable delta (reserve delta m c).2
  | resize {m} (c) : Reachable delta m → Reachable delta (resize m c).2
  | shrink {m} : Reachable delta m → Reachable delta (shrink m).2
  | set_value_at {m} (v pos) : Reachable delta m →
      Reachable delta (set_value_at m v pos)
  | copy_assign {m other} : Reachable delta m → Reachable delta other →
      Reachable delta (copy_assign delta m other)
  | move_assign_dst {m other} : Reachable delta m → Reachable delta other →
      Reachable delta (move_assign m other).1
  | move_assign_src {m other} : Reachable delta m → Reachable delta other →
      Reachable delta (move_assign m other).2
/-- `[("a",1), ("b",2)]` with `delta_ = 5`. -/
def exAB : vectormap String Nat := of_list 5 [("a", 1), ("b", 2)]

/-- `[("a",1), ("b",2), ("c",3)]` with `delta_ = 5`. -/
def exABC : vectormap String Nat := of_list 5 [("a", 1), ("b", 2), ("c", 3)]

/-- `[("a",1), ("b",2), ("a",3)]` with `delta_ = 5`. -/
def exABA : vectormap String Nat := of_list 5 [("a", 1), ("b", 2), ("a", 3)]

/-- `[("k",1)]` with `delta_ = 5`. -/
def exK : vectormap String Nat := of_list 5 [("k", 1)]

/-- `[("c",3)]` with `delta_ = 5`. -/
def exC : vectormap String Nat := of_list 5 [("c", 3)]

/-- The default-constructed `vectormap<std::string, size_t>`. -/
def exEmpty : vectormap String Nat := new

/-- The compound invariant carried by every reachable container:
`size_ ≤ capacity_`, and the two sentinel members still hold their
default-constructed values. -/
def Good (m : vectormap K V) : Prop :=
  m.size_ ≤ m.capacity_ ∧ m.void_key_type_ = default ∧
    m.void_mapped_type_ = default

lemma chunk_ge (d n : Nat) (hd : 1 ≤ d) : n ≤ (n / d + 1) * d := by
  have h1 := Nat.div_add_mod n d
  have h2 : n % d < d := Nat.mod_lt _ hd
  have h3 : (n / d + 1) * d = d * (n / d) + d := by ring
  omega

lemma good_new : Good (new : vectormap K V) :=
  ⟨Nat.le_refl 0, rfl, rfl⟩

lemma good_of_list {delta : Nat} (hd : 1 ≤ delta) (il : List (K × V)) :
    Good (of_list delta il) := by
  unfold Good of_list
  dsimp only
  split
  · exact ⟨chunk_ge delta il.length hd, rfl, rfl⟩
  · next h => exact ⟨by omega, rfl, rfl⟩

lemma good_copy_ctor {m : vectormap K V} (h : Good m) : Good (copy_ctor m) :=
  ⟨h.1, rfl, rfl⟩

lemma good_move_ctor_dst {m : vectormap K V} (h : Good m) :
    Good (move_ctor m).1 :=
  ⟨h.1, rfl, rfl⟩

lemma good_move_ctor_src {m : vectormap K V} (h : Good m) :
    Good (move_ctor m).2 :=
  ⟨Nat.zero_le _, h.2.1, h.2.2⟩

lemma good_resize {m : vectormap K V} (h : Good m) (c : Nat) :
    Good (resize m c).2 := by
  obtain ⟨h1, h2, h3⟩ := h
  unfold resize
  by_cases hc : c < m.size_
  · rw [if_pos hc]; exact ⟨h1, h2, h3⟩
  · rw [if_neg hc]; exact ⟨by dsimp only; omega, h2, h3⟩

lemma good_reserve (delta : Nat) {m : vectormap K V} (h : Good m) (c : Nat) :
    Good (reserve delta m c).2 := by
  unfold reserve
  by_cases hc : c < m.size_
  · rw [if_pos hc]; exact h
  · rw [if_neg hc]; exact good_resize h _

lemma good_shrink {m : vectormap K V} (h : Good m) : Good (shrink m).2 :=
  good_resize h _

lemma reserve_grows {delta : Nat} (hd : 1 ≤ delta) (m : vectormap K V)
    (l : Nat) :
    reserve delta m (m.size_ + l) =
      (true,
       { m with
         capacity_ := ((m.size_ + l) / delta + 1) * delta,
         data_ := (List.range (((m.size_ + l) / delta + 1) * delta)).map
           (fun i => if i < m.size_ then m.data_.getD i none else none) }) := by
  unfold reserve resize
  rw [if_neg (by omega),
      if_neg (by have := chunk_ge delta (m.size_ + l) hd; omega)]

lemma good_gap {delta : Nat} (hd : 1 ≤ delta) {m : vectormap K V}
    (h : Good m) (f l : Nat) :
    Good (gap_ delta m f l).2 ∧ (gap_ delta m f l).2.size_ = m.size_ + l := by
  obtain ⟨h1, h2, h3⟩ := h
  unfold gap_
  by_cases hc : m.size_ + l > m.capacity_
  · rw [if_pos hc, reserve_grows hd]
    have hcap := chunk_ge delta (m.size_ + l) hd
    dsimp only
    split
    · dsimp only; exact ⟨⟨by dsimp only; omega, h2, h3⟩, rfl⟩
    · split
      · split
        · dsimp only; exact ⟨⟨by dsimp only; omega, h2, h3⟩, rfl⟩
        · dsimp only; exact ⟨⟨by dsimp only; omega, h2, h3⟩, rfl⟩
      · dsimp only; exact ⟨⟨by dsimp only; omega, h2, h3⟩, rfl⟩
  · rw [if_neg hc]
    dsimp only
    split
    · dsimp only; exact ⟨⟨by dsimp only; omega, h2, h3⟩, rfl⟩
    · split
      · split
        · dsimp only; exact ⟨⟨by dsimp only; omega, h2, h3⟩, rfl⟩
        · dsimp only; exact ⟨⟨by dsimp only; omega, h2, h3⟩, rfl⟩
      · dsimp only; exact ⟨⟨by dsimp only; omega, h2, h3⟩, rfl⟩

lemma good_insert {delta : Nat} (hd : 1 ≤ delta) {m : vectormap K V}
    (h : Good m) (val : K × V) (pos : Nat) :
    Good (insert delta m val pos).2 := by
  unfold insert
  by_cases hp : pos > m.size_
  · rw [if_pos hp]; exact h
  · rw [if_neg hp]
    dsimp only
    obtain ⟨g1, g2, g3⟩ := (good_gap hd h pos 1).1
    split
    · exact ⟨g1, g2, g3⟩
    · exact ⟨g1, g2, g3⟩

lemma good_insert_list {delta : Nat} (hd : 1 ≤ delta) {m : vectormap K V}
    (h : Good m) (il : List (K × V)) (pos : Nat) :
    Good (insert_list delta m il pos).2 := by
  unfold insert_list
  by_cases hp : pos > m.size_
  · rw [if_pos hp]; exact h
  · rw [if_neg hp]
    dsimp only
    obtain ⟨g1, g2, g3⟩ := (good_gap hd h pos il.length).1
    split
    · exact ⟨g1, g2, g3⟩
    · exact ⟨g1, g2, g3⟩

lemma good_insert_map {delta : Nat} (hd : 1 ≤ delta) {m : vectormap K V}
    (h : Good m) (other : vectormap K V) (pos : Nat) :
    Good (insert_map delta m other pos).2 := by
  unfold insert_map
  by_cases hp : pos > m.size_
  · rw [if_pos hp]; exact h
  · rw [if_neg hp]
    dsimp only
    obtain ⟨g1, g2, g3⟩ := (good_gap hd h pos other.size_).1
    split
    · exact ⟨g1, g2, g3⟩
    · exact ⟨g1, g2, g3⟩

lemma good_erase {m : vectormap K V} (h : Good m) (pos : Nat) :
    Good (erase m pos) := by
  obtain ⟨h1, h2, h3⟩ := h
  unfold erase
  split
  · exact ⟨by dsimp only; omega, h2, h3⟩
  · exact ⟨h1, h2, h3⟩

lemma good_foldl_erase (il : List Nat) :
    ∀ {m : vectormap K V}, Good m → Good (il.foldl erase m) := by
  induction il with
  | nil => intro m h; exact h
  | cons a rest ih => intro m h; exact ih (good_erase h a)

lemma good_erase_list {m : vectormap K V} (h : Good m) (il : List Nat) :
    Good (erase_list m il) :=
  good_foldl_erase il h

lemma good_erase_all {m : vectormap K V} (h : Good m) (key : K) :
    Good (erase_all m key) :=
  good_foldl_erase _ h

lemma good_move {delta : Nat} (hd : 1 ≤ delta) {m : vectormap K V}
    (h : Good m) (from_ to_ : Nat) : Good (move delta m from_ to_) := by
  unfold move
  split
  · obtain ⟨g1, g2, g3⟩ := (good_gap hd h to_ 1).1
    dsimp only
    exact ⟨by dsimp only; omega, g2, g3⟩
  · exact h

lemma good_swap_at {m : vectormap K V} (h : Good m) (from_ to_ : Nat) :
    Good (swap_at m from_ to_) := by
  obtain ⟨h1, h2, h3⟩ := h
  unfold swap_at
  split
  · exact ⟨h1, h2, h3⟩
  · exact ⟨h1, h2, h3⟩

lemma good_swap_vm_left {a b : vectormap K V} (ha : Good a) (hb : Good b) :
    Good (swap_vm a b).1 :=
  ⟨hb.1, ha.2.1, ha.2.2⟩

lemma good_swap_vm_right {a b : vectormap K V} (ha : Good a) (hb : Good b) :
    Good (swap_vm a b).2 :=
  ⟨ha.1, hb.2.1, hb.2.2⟩

lemma good_clear {m : vectormap K V} (h : Good m) : Good (clear m) :=
  ⟨Nat.zero_le _, h.2.1, h.2.2⟩

lemma good_set_value_at {m : vectormap K V} (h : Good m) (v : V) (pos : Nat) :
    Good (set_value_at m v pos) :=
  ⟨h.1, h.2.1, h.2.2⟩

lemma good_copy_assign {delta : Nat} {m : vectormap K V} (h : Good m)
    (other : vectormap K V) : Good (copy_assign delta m other) := by
  have h1 : Good (clear m) := good_clear h
  unfold copy_assign
  dsimp only
  by_cases hc : other.size_ > (clear m).capacity_
  · rw [if_pos hc]
    obtain ⟨a, b, c⟩ := good_reserve delta h1 other.size_
    exact ⟨a, b, c⟩
  · rw [if_neg hc]
    obtain ⟨a, b, c⟩ := h1
    exact ⟨a, b, c⟩

lemma good_move_assign_dst {m other : vectormap K V} (hm : Good m)
    (ho : Good other) : Good (move_assign m other).1 :=
  ⟨ho.1, hm.2.1, hm.2.2⟩

lemma good_move_assign_src {m other : vectormap K V} (hm : Good m)
    (ho : Good other) : Good (move_assign m other).2 :=
  ⟨Nat.zero_le _, ho.2.1, ho.2.2⟩

lemma reachable_good {delta : Nat} (hd : 1 ≤ delta) {m : vectormap K V}
    (h : Reachable delta m) : Good m := by
  induction h with
  | new => exact good_new
  | of_list il => exact good_of_list hd il
  | copy_ctor _ ih => exact good_copy_ctor ih
  | move_ctor_dst _ ih => exact good_move_ctor_dst ih
  | move_ctor_src _ ih => exact good_move_ctor_src ih
  | insert val pos _ ih => exact good_insert hd ih val pos
  | insert_list il pos _ ih => exact good_insert_list hd ih il pos
  | insert_map pos _ _ ihm iho => exact good_insert_map hd ihm _ pos
  | erase pos _ ih => exact good_erase ih pos
  | erase_list il _ ih => exact good_erase_list ih il
  | erase_all key _ ih => exact good_erase_all ih key
  | move from_ to_ _ ih => exact good_move hd ih from_ to_
  | swap_at from_ to_ _ ih => exact good_swap_at ih from_ to_
  | swap_vm_left _ _ iha ihb => exact good_swap_vm_left iha ihb
  | swap_vm_right _ _ iha ihb => exact good_swap_vm_right iha ihb
  | clear _ ih => exact good_clear ih
  | reserve c _ ih => exact good_reserve delta ih c
  | resize c _ ih => exact good_resize ih c
  | shrink _ ih => exact good_shrink ih
  | set_value_at v pos _ ih => exact good_set_value_at ih v pos
  | copy_assign _ _ ihm iho => exact good_copy_assign ihm _
  | move_assign_dst _ _ ihm iho => exact good_move_assign_dst ihm iho
  | move_assign_src _ _ ihm iho => exact good_move_assign_src ihm iho

lemma get_all_eq_filter (m : vectormap K V) (key : K) :
    get_all m key = (List.range m.size_).filter (slot_matches m key) :=
  rfl

lemma get_go_bounded (m : vectormap K V) (key : K) (number : Nat) :
    ∀ (idxs : List Nat) (order : Nat) (out : List Nat), 1 ≤ order →
      out.length + (idxs.filter (slot_matches m key)).length ≤ number →
      get_go m key 1 number idxs order out
        = out ++ idxs.filter (slot_matches m key) := by
  intro idxs
  induction idxs with
  | nil => intro order out _ _; simp [get_go]
  | cons i rest ih =>
    intro order out hord hle
    by_cases hm : slot_matches m key i
    · rw [List.filter_cons_of_pos hm] at hle ⊢
      by_cases he : out.length + 1 = number
      · have hrest : (rest.filter (slot_matches m key)).length = 0 := by
          simp only [List.length_cons] at hle
          omega
        rw [List.length_eq_zero] at hrest
        simp [get_go, hm, hord, he, hrest]
      · have hstep : get_go m key 1 number (i :: rest) order out
            = get_go m key 1 number rest (order + 1) (out ++ [i]) := by
          simp [get_go, hm, hord, he]
        rw [hstep, ih (order + 1) (out ++ [i]) (by omega)
              (by simp only [List.length_append, List.length_cons,
                    List.length_nil] at hle ⊢; omega)]
        simp
    · rw [List.filter_cons_of_neg hm] at hle ⊢
      have hstep : get_go m key 1 number (i :: rest) order out
          = get_go m key 1 number rest order out := by
        simp [get_go, hm]
      rw [hstep]
      exact ih order out hord hle

lemma get_go_number_zero (m : vectormap K V) (key : K) (ordinal : Nat) :
    ∀ (idxs : List Nat) (order : Nat) (out : List Nat),
      get_go m key ordinal 0 idxs order out
        = out ++ (idxs.filter (slot_matches m key)).drop (ordinal - order) := by
  intro idxs
  induction idxs with
  | nil => intro order out; simp [get_go]
  | cons i rest ih =>
    intro order out
    by_cases hm : slot_matches m key i
    · rw [List.filter_cons_of_pos hm]
      by_cases hord : ordinal ≤ order
      · have h0 : ordinal - order = 0 := by omega
        have h1 : ordinal - (order + 1) = 0 := by omega
        have hstep : get_go m key ordinal 0 (i :: rest) order out
            = get_go m key ordinal 0 rest (order + 1) (out ++ [i]) := by
          simp [get_go, hm, hord]
        rw [hstep, ih (order + 1) (out ++ [i]), h0, h1]
        simp
      · have h1 : ordinal - order = (ordinal - (order + 1)) + 1 := by omega
        have hstep : get_go m key ordinal 0 (i :: rest) order out
            = get_go m key ordinal 0 rest (order + 1) out := by
          simp [get_go, hm, hord]
        rw [hstep, ih (order + 1) out, h1, List.drop_succ_cons]
    · rw [List.filter_cons_of_neg hm]
      have hstep : get_go m key ordinal 0 (i :: rest) order out
          = get_go m key ordinal 0 rest order out := by
        simp [get_go, hm]
      rw [hstep]
      exact ih order out

lemma reserve_capacity (delta : Nat) (hd : 1 ≤ delta) (m : vectormap K V)
    (c : Nat) (hc : m.size_ ≤ c) :
    (reserve delta m c).2.capacity_ = (c / delta + 1) * delta ∧
    (reserve delta m c).2.size_ = m.size_ := by
  unfold reserve resize
  rw [if_neg (by omega)]
  have := chunk_ge delta c hd
  rw [if_neg (by omega)]
  exact ⟨rfl, rfl⟩

/-- C1.  The claim states that a successful `gap_(from, length)` relocates
the entries at `[from, size)` to `[from+length, size+length)` and leaves
every entry at `[0, from)` unchanged, so that a multi-entry `insert` yields
prefix ++ new entries ++ suffix.  The code violates this for
`length ≥ 2`: its shift loop runs down to `i > from` instead of stopping
at `i ≥ from + length`, moving (and destroying) entries from below `from`
as well.  Concretely, on the two-entry container `[("a",1), ("b",2)]`,
`gap_(2, 2)` (opening a two-slot gap at the end, as `push_back` of a
two-entry list does) moves `("b",2)` into the gap and destroys its slot,
and the subsequent `insert({x,y}, 2)` therefore produces
`[("a",1), <uninitialized>, ("x",3), ("y",4)]` instead of
`[("a",1), ("b",2), ("x",3), ("y",4)]`. -/
theorem C1_gap_destroys_entries :
    (gap_ 5 exAB 2 2).2.live = [some ("a", 1), none, none, some ("b", 2)] ∧
    (insert_list 5 exAB [("x", 3), ("y", 4)] 2).2.live
      = [some ("a", 1), none, some ("x", 3), some ("y", 4)] ∧
    (insert_list 5 exAB [("x", 3), ("y", 4)] 2).2.live
      ≠ exAB.live ++ [some ("x", 3), some ("y", 4)] := by
  decide

/-- C2.  The claim states that after copy assignment `a = b`, `a` holds
exactly `b`'s entries with `a.size() = b.size()`.  The copy-assignment
operator never updates `size_` (it stays 0 after the initial `clear()`),
so the assigned-to container reports size 0 and an empty live range even
though `b` has one entry. -/
theorem C2_copy_assign_loses_size :
    (copy_assign 5 exEmpty exK).size_ = 0 ∧ exK.size_ = 1 ∧
    (copy_assign 5 exEmpty exK).live = [] := by
  decide

/-- C3.  The claim states that after move assignment the source becomes
the empty container with `capacity() == 0`.  The move-assignment operator
swaps the `capacity_` members instead of zeroing the source, so a source
moved into a destination of capacity 5 is left with
size 0 and a null buffer but capacity 5, not 0.  (The destination does
receive the source's entries.) -/
theorem C3_move_assign_keeps_capacity :
    (move_assign exC exK).1.live = [some ("k", 1)] ∧
    (move_assign exC exK).2.size_ = 0 ∧
    (move_assign exC exK).2.data_ = [] ∧
    (move_assign exC exK).2.capacity_ = 5 := by
  decide

/-- C4 counterexample.  With chunk size 100, `reserve(250)` on the empty
container yields capacity 300 as claimed, but the subsequent `reserve(50)`
is not a no-op: it reallocates to `((50/100)+1)*100 = 100`, shrinking the
capacity from 300 to 100. -/
theorem C4_reserve_shrinks :
    (reserve 100 exEmpty 250).2.capacity_ = 300 ∧
    (reserve 100 (reserve 100 exEmpty 250).2 50).2.capacity_ = 100 := by
  decide

/-- C4 as amended.  With chunk size 100 and `size ≤ 50`, `reserve(250)`
succeeds with capacity 300, and the subsequent `reserve(50)` resizes the
capacity to 100: `reserve` always reallocates to
`((min_capacity / delta) + 1) * delta` whenever `min_capacity ≥ size`,
which may shrink the capacity. -/
theorem C4_amended_reserve_rounds (m : vectormap K V) (h : m.size_ ≤ 50) :
    (reserve 100 m 250).2.capacity_ = 300 ∧
    (reserve 100 (reserve 100 m 250).2 50).2.capacity_ = 100 := by
  obtain ⟨hcap1, hsz1⟩ := reserve_capacity 100 (by norm_num) m 250 (by omega)
  obtain ⟨hcap2, hsz2⟩ :=
    reserve_capacity 100 (by norm_num) (reserve 100 m 250).2 50 (by omega)
  refine ⟨?_, ?_⟩
  · rw [hcap1]
  · rw [hcap2]

/-- Witness for the amended C4 at the empty container. -/
theorem C4_amended_reserve_rounds_witness :
    exEmpty.size_ ≤ 50 ∧
    ((reserve 100 exEmpty 250).2.capacity_ = 300 ∧
     (reserve 100 (reserve 100 exEmpty 250).2 50).2.capacity_ = 100) :=
  ⟨by decide, C4_amended_reserve_rounds exEmpty (by decide)⟩

/-- C5.  The claim states that `move(from, to)` (both in range) removes
the entry at `from` and reinserts it at `to`.  On `[("a",1), ("b",2),
("c",3)]`, `move(0, 1)` should give `[("b",2), ("a",1), ("c",3)]`, but the
code reads `data_[from + 1]` after opening the gap at `to` — the right
slot only when `to ≤ from` — so for `to > from` the call leaves the live
entries exactly as they were. -/
theorem C5_move_forward_is_noop :
    (move 5 exABC 0 1).live = exABC.live ∧
    (move 5 exABC 0 1).live
      ≠ [some ("b", 2), some ("a", 1), some ("c", 3)] := by
  decide

/-- C6: `insert(val, pos)` with `pos > size()` returns the end-of-sequence
marker and leaves the container completely unmodified (same size, same
capacity, all entries identical). -/
theorem C6_insert_past_end {delta : Nat} (m : vectormap K V) (val : K × V)
    (pos : Nat) (h : m.size_ < pos) :
    insert delta m val pos = (none, m) := by
  unfold insert
  rw [if_pos h]

/-- Witness for C6: inserting at position 3 of a two-entry container. -/
theorem C6_insert_past_end_witness :
    exAB.size_ < 3 ∧ insert 5 exAB ("z", 9) 3 = (none, exAB) :=
  ⟨by decide, C6_insert_past_end exAB ("z", 9) 3 (by decide)⟩

/-- C7: every container reachable from the constructors by any sequence of
the public operations satisfies `0 ≤ size ≤ capacity` (the lower bound is
inherent to `Nat`), for any positive chunk size `delta`. -/
theorem C7_size_le_capacity {delta : Nat} (m : vectormap K V)
    (hd : 1 ≤ delta) (h : Reachable delta m) :
    m.size_ ≤ m.capacity_ :=
  (reachable_good hd h).1

/-- Witness for C7 at a three-entry constructed container. -/
theorem C7_size_le_capacity_witness :
    (1 ≤ 5 ∧ Reachable 5 exABA) ∧ exABA.size_ ≤ exABA.capacity_ :=
  ⟨⟨by decide, Reachable.of_list _⟩,
   C7_size_le_capacity exABA (by decide) (Reachable.of_list _)⟩

/-- C8: for every container and key, `get_all(key)` and
`get(key, 1, size())` return the same number of results (indeed the same
position list). -/
theorem C8_get_all_eq_bounded_scan (m : vectormap K V) (key : K) :
    (get_all m key).length = (get m key 1 m.size_).length := by
  rw [get_all_eq_filter]
  unfold get
  rw [get_go_bounded m key m.size_ (List.range m.size_) 1 [] (le_refl 1)
        (by simp only [List.length_nil, Nat.zero_add]
            exact le_trans (List.length_filter_le _ _)
              (le_of_eq (List.length_range _)))]
  simp

/-- C9: for every reachable container and `pos ≥ size`, the position-based
accessors `get_value(pos)` / `get_key(pos)` return the default-constructed
sentinel value / key and leave the container (size, capacity and all
slots) unchanged. -/
theorem C9_out_of_range_returns_sentinel {delta : Nat} (m : vectormap K V)
    (pos : Nat) (hd : 1 ≤ delta) (h : Reachable delta m)
    (hpos : m.size_ ≤ pos) :
    get_value_at m pos = ((default : V), m) ∧
    get_key_at m pos = ((default : K), m) := by
  obtain ⟨-, hk, hv⟩ := reachable_good hd h
  have hlt : ¬ pos < m.size_ := by omega
  unfold get_value_at get_key_at
  rw [if_neg hlt, if_neg hlt, hk, hv]
  exact ⟨rfl, rfl⟩

/-- Witness for C9 at position 7 of a three-entry container. -/
theorem C9_out_of_range_returns_sentinel_witness :
    (1 ≤ 5 ∧ Reachable 5 exABA ∧ exABA.size_ ≤ 7) ∧
    (get_value_at exABA 7 = ((default : Nat), exABA) ∧
     get_key_at exABA 7 = ((default : String), exABA)) :=
  ⟨⟨by decide, Reachable.of_list _, by decide⟩,
   C9_out_of_range_returns_sentinel exABA 7 (by decide)
     (Reachable.of_list _) (by decide)⟩

/-- C10: for every container, key and `ordinal ≥ 1`,
`get(key, ordinal, 0)` returns every match whose ordinal rank is at least
`ordinal` — the full tail of `get_all(key)`, in ascending position order —
rather than an empty result. -/
theorem C10_number_zero_returns_tail (m : vectormap K V) (key : K)
    (ordinal : Nat) (h : 1 ≤ ordinal) :
    get m key ordinal 0 = (get_all m key).drop (ordinal - 1) := by
  rw [get_all_eq_filter]
  unfold get
  rw [get_go_number_zero m key ordinal (List.range m.size_) 1 []]
  simp

/-- Witness for C10: the second-and-later "a" matches of
`[("a",1), ("b",2), ("a",3)]`. -/
theorem C10_number_zero_returns_tail_witness :
    1 ≤ 2 ∧ get exABA "a" 2 0 = (get_all exABA "a").drop 1 :=
  ⟨by decide, C10_number_zero_returns_tail exABA "a" 2 (by decide)⟩

end vectormap

end Com
